import Mathlib

/-!
Verification of the request/response pipeline of the Aptos TypeScript SDK v2
(`ecosystem/typescript/sdk_v2`): the canonical hex-address codec (`HexString`),
the API error type (`AptosApiError`), the cursor pagination walker and the
memoized `getChainId` call.

Strings from the TypeScript source are embedded as Lean `String`s; the
character-level operations (`startsWith`, `slice`, the `/^0x0*/` regex) are
written over `String.data` so that they compute. Byte arrays (`Uint8Array`)
are embedded as `List Nat` with every element `< 256`.
-/

set_option autoImplicit false

namespace Aptos

/-! ## Hex byte conversion utilities

`bytesToHex` / `hexToBytes` are the helpers the SDK imports from
`@noble/hashes/utils` (a dependency, not part of the repository sources):
`bytesToHex` renders each byte as two lowercase hex digits with no prefix;
`hexToBytes` rejects a string of odd length or holding a character outside
`0-9`, `A-F`, `a-f` by throwing, and otherwise parses consecutive digit
pairs into bytes. The thrown error is modelled as `FormatError`. -/

/-- The failure raised on malformed hex input (the spec's `FormatError`). -/
inductive FormatError where
  /-- The digit string has odd length. -/
  | oddLength
  /-- The string holds a character that is not a hex digit. -/
  | invalidChar
  deriving DecidableEq, Repr

/-- Value of one hex digit character, `none` when the character is not a hex
digit (accepting `0-9`, `A-F` and `a-f`, as `@noble/hashes` does). -/
def hexCharToBase16 (c : Char) : Option Nat :=
  if '0' ≤ c ∧ c ≤ '9' then some (c.toNat - 48)
  else if 'A' ≤ c ∧ c ≤ 'F' then some (c.toNat - 55)
  else if 'a' ≤ c ∧ c ≤ 'f' then some (c.toNat - 87)
  else none

/-- Parse consecutive pairs of hex digit characters into bytes; `none` on a
dangling single character or a non-hex character. -/
def hexPairsToBytes : List Char → Option (List Nat)
  | [] => some []
  | [_] => none
  | c1 :: c2 :: rest => do
    let hi ← hexCharToBase16 c1
    let lo ← hexCharToBase16 c2
    let tail ← hexPairsToBytes rest
    pure ((hi * 16 + lo) :: tail)

/-- `hexToBytes` of `@noble/hashes/utils`: fails on odd length or a non-hex
character, otherwise decodes digit pairs to bytes. -/
def hexToBytes (s : String) : Except FormatError (List Nat) :=
  if s.data.length % 2 ≠ 0 then .error .oddLength
  else
    match hexPairsToBytes s.data with
    | some bytes => .ok bytes
    | none => .error .invalidChar

/-- `bytesToHex` of `@noble/hashes/utils`: two lowercase hex digits per byte,
no prefix. (`Nat.digitChar` yields `0-9`, `a-f` for values below 16.) -/
def bytesToHex (bytes : List Nat) : String :=
  String.mk (bytes.flatMap (fun b => [Nat.digitChar (b / 16), Nat.digitChar (b % 16)]))

/-! ## HexString (src/ecosystem/typescript/sdk_v2/src/types/types.ts) -/

/-- `HexString`: a util class for working with hex strings; the inner string
is meant to carry the `0x` prefix. -/
structure HexString where
  hexString : String
  deriving DecidableEq, Repr

/-- `s.startsWith("0x")` at the character level. -/
def strStartsWith0x (s : String) : Bool :=
  match s.data with
  | '0' :: 'x' :: _ => true
  | _ => false

namespace HexString

/-- The `HexString` constructor: if the string already starts with `"0x"` it
is stored as is, otherwise the prefix is prepended (it performs no
validation of the remaining characters). -/
def make (hexString : String) : HexString :=
  if strStartsWith0x hexString then ⟨hexString⟩ else ⟨"0x" ++ hexString⟩

/-- `HexString.fromUint8Array`: hex-encode the bytes, then construct. -/
def fromUint8Array (arr : List Nat) : HexString :=
  make (bytesToHex arr)

/-- `HexString.fromBuffer` delegates to `fromUint8Array`. -/
def fromBuffer (buffer : List Nat) : HexString :=
  fromUint8Array buffer

/-- `MaybeHexString = HexString | string`. -/
def MaybeHexString : Type := Sum String HexString

/-- `HexString.ensure`: a plain string goes through the constructor, a
`HexString` instance is returned untouched. -/
def ensure (hexString : MaybeHexString) : HexString :=
  match hexString with
  | Sum.inl s => make s
  | Sum.inr h => h

/-- `hex()`: getter for the inner string. -/
def hex (h : HexString) : String :=
  h.hexString

/-- The `HexString` method that returns `this.hexString.slice(2)`, i.e. the inner string with its
first two characters removed. -/
def noPrefixHex (h : HexString) : String :=
  String.mk (h.hexString.data.drop 2)

/-- `toString()` returns `hex()`. -/
def toStr (h : HexString) : String :=
  h.hex

/-- `toShortString()`: `this.hexString.replace(/^0x0*/, "")` then prepend
`"0x"`. The regex removes a leading `"0x"` together with the maximal run of
`'0'` characters that follows it; when the string does not start with
`"0x"` nothing is removed. -/
def toShortString (h : HexString) : String :=
  if strStartsWith0x h.hexString then
    "0x" ++ String.mk ((h.hexString.data.drop 2).dropWhile (fun c => c = '0'))
  else
    "0x" ++ h.hexString

/-- `toUint8Array()`: `hexToBytes(this.noPrefix())`. -/
def toUint8Array (h : HexString) : Except FormatError (List Nat) :=
  hexToBytes h.noPrefixHex

end HexString

/-! ## Request / response / error types
(src/ecosystem/typescript/sdk_v2/src/types/types.ts) -/

/-- A decoded JSON body (`any`-typed data in the TypeScript source). -/
inductive JsonValue where
  | null
  | bool (b : Bool)
  | num (n : Int)
  | str (s : String)
  | arr (elems : List JsonValue)
  | obj (fields : List (String × JsonValue))

/-- The request method union `"GET" | "POST"`. -/
inductive HttpMethod where
  | GET
  | POST
  deriving DecidableEq, Repr

/-- `ClientConfig`: per-request overrides (auth token, extra headers,
credential-forwarding flag). -/
structure ClientConfig where
  TOKEN : Option String := none
  HEADERS : Option (List (String × JsonValue)) := none
  WITH_CREDENTIALS : Option Bool := none

/-- `AptosRequest`: the API request descriptor. -/
structure AptosRequest where
  url : String
  method : HttpMethod
  endpoint : Option String := none
  body : Option JsonValue := none
  contentType : Option String := none
  params : Option (List (String × Option JsonValue)) := none
  originMethod : Option String := none
  overrides : Option ClientConfig := none

/-- `AptosResponse`: the normalized response envelope (status, status text,
decoded body, url, headers, optionally the originating request). -/
structure AptosResponse where
  status : Nat
  statusText : String
  data : JsonValue
  url : String
  headers : List (String × String)
  config : Option JsonValue := none
  request : Option AptosRequest := none

/-- `AptosApiError`: the typed error built from a non-success envelope. -/
structure AptosApiError where
  name : String
  message : String
  url : String
  status : Nat
  statusText : String
  data : JsonValue
  request : AptosRequest

/-- The `AptosApiError` constructor: `name` is fixed to `"AptosApiError"`;
`url`, `status`, `statusText` and `data` are copied from the response
envelope; the originating request is retained. -/
def AptosApiError.make (request : AptosRequest) (response : AptosResponse)
    (message : String) : AptosApiError :=
  { name := "AptosApiError"
    message := message
    url := response.url
    status := response.status
    statusText := response.statusText
    data := response.data
    request := request }

/-! ## Pagination walker

Modelled from the spec: `paginateWithCursor` lives in `src/utils`, which is
not among the provided sources (only its caller `Account.getModules` in
src/ecosystem/typescript/sdk_v2/src/api/account.ts is). Following spec
§4.4: issue the first request; read the designated cursor header of each
response; if the cursor is present, non-empty and different from the cursor
just used, issue the next request and append its decoded items; stop with
success when the cursor is absent/empty (a) or repeats the previous cursor
(b), and fail with `PaginationExhaustedError` carrying the partial sequence
when the iteration count exceeds a fixed safety bound (c).

The server is modelled as the sequence of page responses it returns (the
`k`-th issued request receives `server k`); each page carries its decoded
items and the value of the cursor header (`none` when absent). The result
also records how many requests were issued. -/

/-- One page response: decoded items plus the designated cursor header
(`none` = header absent, `some ""` = header empty). -/
structure Page (α : Type) where
  items : List α
  cursor : Option String
  deriving DecidableEq, Repr

/-- Outcome of a pagination walk: success with the accumulated items, or
`PaginationExhaustedError` carrying the partial items; both record the
number of requests issued. -/
inductive PageResult (α : Type) where
  /-- The walk finished (cursor absent/empty or repeated). -/
  | success (items : List α) (requests : Nat)
  /-- `PaginationExhaustedError`: the safety bound was exceeded; carries the
  partial sequence gathered so far. -/
  | exhausted (partialItems : List α) (requests : Nat)
  deriving DecidableEq, Repr

/-- The stop test applied to a freshly read cursor header, in the spec's
priority order: header absent or empty first, then equality with the cursor
just used. -/
def stopCursor (prev : Option String) (cursor : Option String) : Bool :=
  match cursor with
  | none => true
  | some c => c = "" || prev = some c

/-- Modelled from the spec: the loop of `paginateWithCursor`. `fuel` is the
remaining iteration budget, `i` the index of the next request (= requests
issued so far), `prev` the cursor used for the pending request, `acc` the
items accumulated so far. -/
def paginateLoop {α : Type} (server : Nat → Page α) :
    Nat → Nat → Option String → List α → PageResult α
  | 0, i, _, acc => .exhausted acc i
  | fuel + 1, i, prev, acc =>
    let p := server i
    if stopCursor prev p.cursor then .success (acc ++ p.items) (i + 1)
    else paginateLoop server fuel (i + 1) p.cursor (acc ++ p.items)

/-- Modelled from the spec: `paginateWithCursor` starts with no cursor, no
accumulated items, and the fixed safety bound as iteration budget. -/
def paginateWithCursor {α : Type} (server : Nat → Page α) (bound : Nat) :
    PageResult α :=
  paginateLoop server bound 0 none []

/-- The cursor the walker holds when it issues request `j`: nothing for the
first request, afterwards the cursor header of the previous page. -/
def prevCursorAt {α : Type} (server : Nat → Page α) : Nat → Option String
  | 0 => none
  | j + 1 => (server j).cursor

/-- Whether the walk stops after consuming page `j`. -/
def stopsAt {α : Type} (server : Nat → Page α) (j : Nat) : Bool :=
  stopCursor (prevCursorAt server j) (server j).cursor

/-- Concatenation, in server order, of the items of pages `i, …, i+n-1`. -/
def pagesFrom {α : Type} (server : Nat → Page α) : Nat → Nat → List α
  | _, 0 => []
  | i, n + 1 => (server i).items ++ pagesFrom server (i + 1) n

/-! ## Memoized getChainId

Modelled from the spec: the `@Memoize()` decorator applied to
`General.getChainId` lives in `src/utils`, which is not among the provided
sources (the decorated method in
src/ecosystem/typescript/sdk_v2/src/api/general.ts is). Following spec
§4.5: the first invocation on an instance performs the underlying network
call; on success the result is stored in the instance's cache entry and
returned; every later invocation returns the stored value without touching
the network; on failure nothing is cached and the next invocation retries
from scratch.

The network is modelled as the sequence of outcomes of the underlying
calls (`net k` is the result of the `k`-th network call actually
performed); the instance state holds the cache entry and a counter of
network calls performed, so "the network is touched exactly once" is the
statement `networkCalls = 1`. -/

/-- Per-instance state backing the memoized `getChainId`: the cache entry
and an injected counter of underlying network calls. -/
structure ChainIdCacheState where
  cached : Option Nat
  networkCalls : Nat
  deriving DecidableEq, Repr

/-- Modelled from the spec: one invocation of the memoized
`General.getChainId`. A cached value is returned without a network call;
otherwise the underlying call runs: its success is stored and returned,
its failure is returned with nothing cached. -/
def getChainIdOnce (net : Nat → Except AptosApiError Nat)
    (s : ChainIdCacheState) : Except AptosApiError Nat × ChainIdCacheState :=
  match s.cached with
  | some v => (.ok v, s)
  | none =>
    match net s.networkCalls with
    | .ok v => (.ok v, ⟨some v, s.networkCalls + 1⟩)
    | .error e => (.error e, ⟨none, s.networkCalls + 1⟩)

/-- `n` sequential invocations of the memoized `getChainId` on one
instance, returning the list of results in order and the final state. -/
def getChainIdIter (net : Nat → Except AptosApiError Nat) :
    Nat → ChainIdCacheState → List (Except AptosApiError Nat) × ChainIdCacheState
  | 0, s => ([], s)
  | n + 1, s =>
    let rs := getChainIdOnce net s
    let rest := getChainIdIter net n rs.2
    (rs.1 :: rest.1, rest.2)

/-! ## Helper lemmas on the hex codec -/

theorem data_append_0x (s : String) : ("0x" ++ s).data = '0' :: 'x' :: s.data := by
  rw [String.data_append]
  rfl

theorem strStartsWith0x_0x_append (s : String) : strStartsWith0x ("0x" ++ s) = true := by
  unfold strStartsWith0x
  rw [data_append_0x]
  rfl

theorem make_hexString_of_prefixed {s : String} (h : strStartsWith0x s = true) :
    (HexString.make s).hexString = s := by
  simp [HexString.make, h]

theorem make_hexString_of_unprefixed {s : String} (h : strStartsWith0x s = false) :
    (HexString.make s).hexString = "0x" ++ s := by
  simp [HexString.make, h]

theorem make_startsWith (s : String) :
    strStartsWith0x (HexString.make s).hexString = true := by
  cases h : strStartsWith0x s with
  | true => rw [make_hexString_of_prefixed h]; exact h
  | false => rw [make_hexString_of_unprefixed h]; exact strStartsWith0x_0x_append s

theorem hexPairsToBytes_eq_none {l : List Char}
    (h : ∃ c ∈ l, hexCharToBase16 c = none) : hexPairsToBytes l = none := by
  induction l using hexPairsToBytes.induct with
  | case1 => simp at h
  | case2 c => rfl
  | case3 c1 c2 rest ih =>
    rcases h with ⟨c, hc, hnone⟩
    unfold hexPairsToBytes
    rcases hc with _ | ⟨_, hc⟩
    · rw [hnone]; rfl
    · rcases hc with _ | ⟨_, hc⟩
      · cases h1 : hexCharToBase16 c1
        · rfl
        · rw [hnone]; rfl
      · cases h1 : hexCharToBase16 c1
        · rfl
        · cases h2 : hexCharToBase16 c2
          · rfl
          · rw [ih ⟨c, hc, hnone⟩]; rfl

/-! ## Claims about the hex codec -/

/-- C10: every `HexString` built by the constructor stores a string starting
with `"0x"`; `hex()` returns that stored string, `toString()` returns
`hex()`, and the slice-2 accessor returns `hex()` with its first two characters
removed. -/
theorem hexString_prefix_invariant (s : String) :
    strStartsWith0x (HexString.make s).hexString = true ∧
    (HexString.make s).hex = (HexString.make s).hexString ∧
    (HexString.make s).toStr = (HexString.make s).hex ∧
    (HexString.make s).noPrefixHex = String.mk ((HexString.make s).hex.data.drop 2) :=
  ⟨make_startsWith s, rfl, rfl, rfl⟩

/-- C3: `HexString.ensure` is idempotent — ensuring an already-ensured value
returns it unchanged — and the constructor adds the `0x` prefix only when it
is absent, never double-prefixing an already-prefixed input. -/
theorem ensure_idempotent (x : HexString.MaybeHexString) :
    HexString.ensure (Sum.inr (HexString.ensure x)) = HexString.ensure x ∧
    (∀ s : String, strStartsWith0x s = true → (HexString.make s).hexString = s) ∧
    (∀ s : String, strStartsWith0x s = false → (HexString.make s).hexString = "0x" ++ s) :=
  ⟨rfl, fun _ h => make_hexString_of_prefixed h, fun _ h => make_hexString_of_unprefixed h⟩

/-- Witness for C3 at the concrete inputs `"abc"`, `"0xab"` and `"ab"`. -/
theorem ensure_idempotent_witness :
    HexString.ensure (Sum.inr (HexString.ensure (Sum.inl "abc"))) =
      HexString.ensure (Sum.inl "abc") ∧
    (HexString.make "0xab").hexString = "0xab" ∧
    (HexString.make "ab").hexString = "0x" ++ "ab" :=
  ⟨(ensure_idempotent (Sum.inl "abc")).1,
   (ensure_idempotent (Sum.inl "abc")).2.1 "0xab" (by decide),
   (ensure_idempotent (Sum.inl "abc")).2.2 "ab" (by decide)⟩

/-- C1 counterexample: `toShortString` of the all-zero 32-byte address
returns the bare prefix `"0x"`, not `"0x0"` — the regex `/^0x0*/` strips
every zero digit, leaving none. -/
theorem toShortString_allZero_counterexample :
    (HexString.fromUint8Array (List.replicate 32 0)).toShortString = "0x" ∧
    (HexString.fromUint8Array (List.replicate 32 0)).toShortString ≠ "0x0" := by
  constructor
  · rfl
  · intro h
    rw [show (HexString.fromUint8Array (List.replicate 32 0)).toShortString = "0x" from rfl] at h
    simp at h

/-- C1 amended: for every `HexString` whose stored string starts with `"0x"`
and whose digits after the prefix are all `'0'`, `toShortString` returns the
bare prefix `"0x"` with no digits left. -/
theorem toShortString_allZero (h : HexString)
    (hpre : strStartsWith0x h.hexString = true)
    (hzero : ∀ c ∈ h.hexString.data.drop 2, c = '0') :
    h.toShortString = "0x" := by
  unfold HexString.toShortString
  rw [if_pos hpre]
  rw [List.dropWhile_eq_nil_iff.mpr (fun x hx => by simp [hzero x hx])]
  rfl

/-- Witness for C1 (amended) at the all-zero 32-byte address. -/
theorem toShortString_allZero_witness :
    strStartsWith0x (HexString.fromUint8Array (List.replicate 32 0)).hexString = true ∧
    (∀ c ∈ (HexString.fromUint8Array (List.replicate 32 0)).hexString.data.drop 2, c = '0') ∧
    (HexString.fromUint8Array (List.replicate 32 0)).toShortString = "0x" :=
  ⟨by decide, by decide, toShortString_allZero _ (by decide) (by decide)⟩

/-- C4 counterexample: constructing from the malformed digit string `"zz"`
does not fail — `ensure` returns the unvalidated `HexString` `"0xzz"` — and
the `FormatError` only surfaces later, when `toUint8Array` decodes it. -/
theorem ensure_malformed_counterexample :
    HexString.ensure (Sum.inl "zz") = ⟨"0xzz"⟩ ∧
    (HexString.ensure (Sum.inl "zz")).toUint8Array = Except.error FormatError.invalidChar := by
  constructor
  · decide
  · rfl

/-- C4 amended: a malformed hex digit string — odd length or a non-hex
character — is accepted unvalidated by the constructor and `ensure`; the
failure with a `FormatError` happens when the value is decoded to bytes by
`toUint8Array`. -/
theorem toUint8Array_malformed_fails (h : HexString)
    (hm : h.noPrefixHex.data.length % 2 ≠ 0 ∨
      ∃ c ∈ h.noPrefixHex.data, hexCharToBase16 c = none) :
    ∃ e, h.toUint8Array = Except.error e := by
  unfold HexString.toUint8Array hexToBytes
  by_cases hlen : h.noPrefixHex.data.length % 2 ≠ 0
  · exact ⟨.oddLength, by rw [if_pos hlen]⟩
  · rcases hm with hodd | hbad
    · exact absurd hodd hlen
    · refine ⟨.invalidChar, ?_⟩
      rw [if_neg hlen, hexPairsToBytes_eq_none hbad]

/-- Witness for C4 (amended) at the malformed input `"zz"`. -/
theorem toUint8Array_malformed_fails_witness :
    ((HexString.make "zz").noPrefixHex.data.length % 2 ≠ 0 ∨
      ∃ c ∈ (HexString.make "zz").noPrefixHex.data, hexCharToBase16 c = none) ∧
    ∃ e, (HexString.make "zz").toUint8Array = Except.error e :=
  ⟨Or.inr (by decide), toUint8Array_malformed_fails _ (Or.inr (by decide))⟩

/-! ## Round trip bytes → hex → bytes -/

theorem hexCharToBase16_digitChar : ∀ n < 16, hexCharToBase16 (Nat.digitChar n) = some n := by
  decide

theorem digitChar_ne_x : ∀ n < 16, Nat.digitChar n ≠ 'x' := by
  decide

theorem bytesToHex_data (l : List Nat) :
    (bytesToHex l).data
      = l.flatMap (fun b => [Nat.digitChar (b / 16), Nat.digitChar (b % 16)]) := rfl

theorem flat_digits_length (l : List Nat) :
    (l.flatMap (fun b => [Nat.digitChar (b / 16), Nat.digitChar (b % 16)])).length
      = 2 * l.length := by
  induction l with
  | nil => rfl
  | cons b t ih =>
    rw [List.flatMap_cons, List.length_append, ih, List.length_cons, List.length_cons,
      List.length_nil, List.length_cons]
    omega

theorem hexPairsToBytes_flat (l : List Nat) (h : ∀ b ∈ l, b < 256) :
    hexPairsToBytes (l.flatMap (fun b => [Nat.digitChar (b / 16), Nat.digitChar (b % 16)]))
      = some l := by
  induction l with
  | nil => rfl
  | cons b t ih =>
    have hb : b < 256 := h b (by simp)
    have ht : ∀ x ∈ t, x < 256 := fun x hx => h x (by simp [hx])
    simp only [List.flatMap_cons, List.cons_append, List.nil_append]
    unfold hexPairsToBytes
    rw [hexCharToBase16_digitChar _ (by omega), hexCharToBase16_digitChar _ (by omega), ih ht]
    have : b / 16 * 16 + b % 16 = b := by omega
    simp [this]

theorem strStartsWith0x_mk_cons (c1 c2 : Char) (rest : List Char) (h : c2 ≠ 'x') :
    strStartsWith0x (String.mk (c1 :: c2 :: rest)) = false := by
  unfold strStartsWith0x
  split
  · next heq =>
    injection heq with h1 h2
    injection h2 with h2 h3
    exact absurd h2 h
  · rfl

theorem strStartsWith0x_bytesToHex (l : List Nat) :
    strStartsWith0x (bytesToHex l) = false := by
  cases l with
  | nil => rfl
  | cons b t =>
    show strStartsWith0x (String.mk ((b :: t).flatMap
      (fun b => [Nat.digitChar (b / 16), Nat.digitChar (b % 16)]))) = false
    simp only [List.flatMap_cons, List.cons_append, List.nil_append]
    exact strStartsWith0x_mk_cons _ _ _ (digitChar_ne_x _ (Nat.mod_lt b (by omega)))

theorem string_mk_data (s : String) : String.mk s.data = s := rfl

/-- C2: for every valid byte sequence, hex-encoding via `fromUint8Array`,
passing through `ensure`, and decoding via `toUint8Array` returns the
original bytes. -/
theorem fromUint8Array_roundtrip (l : List Nat) (h : ∀ b ∈ l, b < 256) :
    (HexString.ensure (Sum.inr (HexString.fromUint8Array l))).toUint8Array
      = Except.ok l := by
  show (HexString.fromUint8Array l).toUint8Array = Except.ok l
  have hdata : (HexString.fromUint8Array l).hexString.data
      = '0' :: 'x' :: (bytesToHex l).data := by
    unfold HexString.fromUint8Array
    rw [make_hexString_of_unprefixed (strStartsWith0x_bytesToHex l), data_append_0x]
  unfold HexString.toUint8Array HexString.noPrefixHex
  rw [hdata]
  show hexToBytes (String.mk (bytesToHex l).data) = Except.ok l
  unfold hexToBytes
  rw [string_mk_data]
  have hlen : ¬((bytesToHex l).data.length % 2 ≠ 0) := by
    rw [bytesToHex_data, flat_digits_length]
    omega
  rw [if_neg hlen, bytesToHex_data, hexPairsToBytes_flat l h]

/-- Witness for C2 at the concrete byte sequence `[0, 1, 171, 255]`. -/
theorem fromUint8Array_roundtrip_witness :
    (∀ b ∈ [0, 1, 171, 255], b < 256) ∧
    (HexString.ensure (Sum.inr (HexString.fromUint8Array [0, 1, 171, 255]))).toUint8Array
      = Except.ok [0, 1, 171, 255] :=
  ⟨by decide, fromUint8Array_roundtrip _ (by decide)⟩

/-! ## Error translation -/

/-- C5: the `AptosApiError` built from a non-success envelope (status ≥ 400)
carries exactly the envelope's status code, its status text, its decoded (or
raw) body, and the originating request object, retained for diagnostics. -/
theorem aptosApiError_fields (request : AptosRequest) (response : AptosResponse)
    (message : String) (_hstatus : 400 ≤ response.status) :
    (AptosApiError.make request response message).status = response.status ∧
    (AptosApiError.make request response message).statusText = response.statusText ∧
    (AptosApiError.make request response message).data = response.data ∧
    (AptosApiError.make request response message).request = request :=
  ⟨rfl, rfl, rfl, rfl⟩

/-- A concrete GET request used in the C5 witness. -/
def accountRequest : AptosRequest :=
  { url := "https://fullnode.devnet.aptoslabs.com/v1"
    method := .GET
    endpoint := some "accounts/0x1"
    originMethod := some "getData" }

/-- A concrete 404 envelope with body `{"message":"Account not found"}`. -/
def notFoundResponse : AptosResponse :=
  { status := 404
    statusText := "Not Found"
    data := .obj [("message", .str "Account not found")]
    url := "https://fullnode.devnet.aptoslabs.com/v1/accounts/0x1"
    headers := [] }

/-- Witness for C5: the 404 envelope with body
`{"message":"Account not found"}` yields an error with status 404, that
body, and the original request's endpoint retained. -/
theorem aptosApiError_fields_witness :
    400 ≤ notFoundResponse.status ∧
    ((AptosApiError.make accountRequest notFoundResponse "Account not found").status
        = notFoundResponse.status ∧
      (AptosApiError.make accountRequest notFoundResponse "Account not found").statusText
        = notFoundResponse.statusText ∧
      (AptosApiError.make accountRequest notFoundResponse "Account not found").data
        = notFoundResponse.data ∧
      (AptosApiError.make accountRequest notFoundResponse "Account not found").request
        = accountRequest) ∧
    (AptosApiError.make accountRequest notFoundResponse "Account not found").status = 404 ∧
    (AptosApiError.make accountRequest notFoundResponse "Account not found").data
      = .obj [("message", .str "Account not found")] ∧
    (AptosApiError.make accountRequest notFoundResponse "Account not found").request.endpoint
      = some "accounts/0x1" :=
  ⟨by decide,
   aptosApiError_fields accountRequest notFoundResponse "Account not found" (by decide),
   rfl, rfl, rfl⟩

/-! ## Pagination walker lemmas -/

theorem paginateLoop_zero {α : Type} (server : Nat → Page α) (i : Nat)
    (prev : Option String) (acc : List α) :
    paginateLoop server 0 i prev acc = .exhausted acc i := rfl

theorem paginateLoop_succ {α : Type} (server : Nat → Page α) (fuel i : Nat)
    (prev : Option String) (acc : List α) :
    paginateLoop server (fuel + 1) i prev acc
      = if stopCursor prev (server i).cursor
        then .success (acc ++ (server i).items) (i + 1)
        else paginateLoop server fuel (i + 1) (server i).cursor (acc ++ (server i).items) :=
  rfl

theorem prevCursorAt_succ {α : Type} (server : Nat → Page α) (j : Nat) :
    prevCursorAt server (j + 1) = (server j).cursor := rfl

/-- Complete characterization of the pagination loop, by induction on the
remaining fuel: either some page within the budget satisfies the stop test
and the loop succeeds right after consuming the first such page, or no page
does and the loop reports exhaustion with everything gathered. -/
theorem paginateLoop_characterize {α : Type} (server : Nat → Page α) :
    ∀ (fuel i : Nat) (acc : List α),
      (∃ m, m < fuel ∧ (∀ t, t < m → stopsAt server (i + t) = false) ∧
        stopsAt server (i + m) = true ∧
        paginateLoop server fuel i (prevCursorAt server i) acc
          = .success (acc ++ pagesFrom server i (m + 1)) (i + m + 1)) ∨
      ((∀ t, t < fuel → stopsAt server (i + t) = false) ∧
        paginateLoop server fuel i (prevCursorAt server i) acc
          = .exhausted (acc ++ pagesFrom server i fuel) (i + fuel)) := by
  intro fuel
  induction fuel with
  | zero =>
    intro i acc
    right
    exact ⟨fun t ht => absurd ht (by omega), by simp [paginateLoop_zero, pagesFrom]⟩
  | succ fuel ih =>
    intro i acc
    cases hstop : stopsAt server i with
    | true =>
      left
      refine ⟨0, by omega, fun t ht => absurd ht (by omega), by simpa using hstop, ?_⟩
      have hstop' : stopCursor (prevCursorAt server i) (server i).cursor = true := hstop
      rw [paginateLoop_succ, if_pos hstop']
      simp [pagesFrom]
    | false =>
      have hrec : paginateLoop server (fuel + 1) i (prevCursorAt server i) acc
          = paginateLoop server fuel (i + 1) (prevCursorAt server (i + 1))
              (acc ++ (server i).items) := by
        have hstop' : stopCursor (prevCursorAt server i) (server i).cursor = false := hstop
        rw [paginateLoop_succ, if_neg (by rw [hstop']; simp), prevCursorAt_succ]
      rcases ih (i + 1) (acc ++ (server i).items) with
        ⟨m, hm, hpre, hstopm, heq⟩ | ⟨hall, heq⟩
      · left
        refine ⟨m + 1, by omega, ?_, ?_, ?_⟩
        · intro t ht
          match t with
          | 0 => simpa using hstop
          | s + 1 =>
            rw [show i + (s + 1) = i + 1 + s by omega]
            exact hpre s (by omega)
        · rw [show i + (m + 1) = i + 1 + m by omega]
          exact hstopm
        · rw [hrec, heq]
          rw [show pagesFrom server i (m + 1 + 1)
            = (server i).items ++ pagesFrom server (i + 1) (m + 1) from rfl]
          rw [List.append_assoc]
          congr 1
          omega
      · right
        refine ⟨?_, ?_⟩
        · intro t ht
          match t with
          | 0 => simpa using hstop
          | s + 1 =>
            rw [show i + (s + 1) = i + 1 + s by omega]
            exact hall s (by omega)
        · rw [hrec, heq]
          rw [show pagesFrom server i (fuel + 1)
            = (server i).items ++ pagesFrom server (i + 1) fuel from rfl]
          rw [List.append_assoc]
          congr 1
          omega

/-! ## Claims about the pagination walker -/

/-- C6: for every server behaviour and safety bound, the pagination walk
terminates with exactly one of the spec's outcomes: success right after the
first page whose cursor header is absent (a), empty (a), or repeats the
cursor just used (b) — returning the accumulated items of all consumed
pages — or, when no page within the bound stops the walk,
`PaginationExhaustedError` carrying the partial sequence gathered. -/
theorem paginateWithCursor_trichotomy {α : Type} (server : Nat → Page α) (bound : Nat) :
    (∃ m, m < bound ∧ (∀ t, t < m → stopsAt server t = false) ∧
      stopsAt server m = true ∧
      ((server m).cursor = none ∨ (server m).cursor = some "" ∨
        (∃ c, (server m).cursor = some c ∧ c ≠ "" ∧ prevCursorAt server m = some c)) ∧
      paginateWithCursor server bound = .success (pagesFrom server 0 (m + 1)) (m + 1)) ∨
    ((∀ t, t < bound → stopsAt server t = false) ∧
      paginateWithCursor server bound = .exhausted (pagesFrom server 0 bound) bound) := by
  rcases paginateLoop_characterize server bound 0 [] with
    ⟨m, hm, hpre, hstop, heq⟩ | ⟨hall, heq⟩
  · left
    refine ⟨m, hm, fun t ht => by simpa using hpre t ht, by simpa using hstop, ?_, ?_⟩
    · have hstop' : stopCursor (prevCursorAt server m) (server m).cursor = true := by
        simpa [stopsAt] using hstop
      cases hcur : (server m).cursor with
      | none => exact Or.inl rfl
      | some c =>
        rw [hcur] at hstop'
        unfold stopCursor at hstop'
        rcases Bool.or_eq_true_iff.mp hstop' with hc | hprev
        · exact Or.inr (Or.inl (by simpa using hc))
        · by_cases hce : c = ""
          · exact Or.inr (Or.inl (by rw [hce]))
          · exact Or.inr (Or.inr ⟨c, rfl, hce, by simpa using hprev⟩)
    · unfold paginateWithCursor
      have h0 : (none : Option String) = prevCursorAt server 0 := rfl
      rw [h0, heq]
      simp
  · right
    refine ⟨fun t ht => by simpa using hall t ht, ?_⟩
    unfold paginateWithCursor
    have h0 : (none : Option String) = prevCursorAt server 0 := rfl
    rw [h0, heq]
    simp

/-- C7: when the server returns the same non-empty cursor on two
consecutive pages `k` and `k+1`, and the walk reaches page `k+1` within the
bound without stopping earlier, the walker stops right after consuming page
`k+1`, returns the items accumulated up to and including it, and issues no
request beyond the `k+2` already made. -/
theorem paginateWithCursor_stall_guard {α : Type} (server : Nat → Page α)
    (bound k : Nat) (c : String)
    (hpre : ∀ j, j ≤ k → stopsAt server j = false)
    (hck : (server k).cursor = some c) (_hc : c ≠ "")
    (hck1 : (server (k + 1)).cursor = some c)
    (hbound : k + 2 ≤ bound) :
    paginateWithCursor server bound = .success (pagesFrom server 0 (k + 2)) (k + 2) := by
  have hstopk1 : stopsAt server (k + 1) = true := by
    unfold stopsAt stopCursor
    rw [prevCursorAt_succ, hck, hck1]
    simp
  rcases paginateWithCursor_trichotomy server bound with
    ⟨m, hm, hpre', hstop, _, heq⟩ | ⟨hall, _⟩
  · have hmk : m = k + 1 := by
      by_contra hne
      rcases Nat.lt_or_ge m (k + 1) with hlt | hge
      · rw [hpre m (by omega)] at hstop
        cases hstop
      · have hgt : k + 1 < m := by omega
        have := hpre' (k + 1) hgt
        rw [hstopk1] at this
        cases this
    rw [hmk] at heq
    exact heq
  · have := hall (k + 1) (by omega)
    rw [hstopk1] at this
    cases this

/-- A concrete server for the C7 witness: cursor `"b"` is repeated on the
second and third pages. -/
def stallServer : Nat → Page Nat
  | 0 => ⟨[1, 2], some "a"⟩
  | 1 => ⟨[3, 4], some "b"⟩
  | 2 => ⟨[5], some "b"⟩
  | _ => ⟨[6], some "never"⟩

/-- Witness for C7: on `stallServer` the walker stops after the third page
(the one repeating cursor `"b"`), with items `[1, 2, 3, 4, 5]` and exactly 3
requests. -/
theorem paginateWithCursor_stall_guard_witness :
    (∀ j, j ≤ 1 → stopsAt stallServer j = false) ∧
    (stallServer 1).cursor = some "b" ∧ "b" ≠ "" ∧
    (stallServer 2).cursor = some "b" ∧ 1 + 2 ≤ 100 ∧
    paginateWithCursor stallServer 100 = .success [1, 2, 3, 4, 5] 3 :=
  ⟨by decide, rfl, by decide, rfl, by decide,
   paginateWithCursor_stall_guard stallServer 100 1 "b"
     (by decide) rfl (by decide) rfl (by decide)⟩

/-- C8: a server yielding 3 pages of sizes 40, 40 and 20, with distinct
non-empty cursors on pages 1 and 2 and no cursor on page 3, makes the
walker return the 100-item concatenation of the pages in server order,
issuing exactly 3 requests. -/
theorem paginateWithCursor_three_pages {α : Type} (server : Nat → Page α)
    (p0 p1 p2 : List α) (c1 c2 : String) (bound : Nat)
    (h0 : server 0 = ⟨p0, some c1⟩) (h1 : server 1 = ⟨p1, some c2⟩)
    (h2 : server 2 = ⟨p2, none⟩)
    (hl0 : p0.length = 40) (hl1 : p1.length = 40) (hl2 : p2.length = 20)
    (hc1 : c1 ≠ "") (hc2 : c2 ≠ "") (hcc : c1 ≠ c2)
    (hbound : 3 ≤ bound) :
    paginateWithCursor server bound = .success (p0 ++ p1 ++ p2) 3 ∧
    (p0 ++ p1 ++ p2).length = 100 := by
  have hs0 : stopsAt server 0 = false := by
    unfold stopsAt stopCursor prevCursorAt
    rw [h0]
    simp [hc1]
  have hs1 : stopsAt server 1 = false := by
    unfold stopsAt stopCursor
    rw [prevCursorAt_succ, h0, h1]
    simp [hc2, hcc]
  have hs2 : stopsAt server 2 = true := by
    unfold stopsAt stopCursor
    rw [h2]
  constructor
  · rcases paginateWithCursor_trichotomy server bound with
      ⟨m, hm, hpre', hstop, _, heq⟩ | ⟨hall, _⟩
    · have hmk : m = 2 := by
        by_contra hne
        rcases Nat.lt_or_ge m 2 with hlt | hge
        · match m, hlt with
          | 0, _ => rw [hs0] at hstop; cases hstop
          | 1, _ => rw [hs1] at hstop; cases hstop
        · have := hpre' 2 (by omega)
          rw [hs2] at this
          cases this
      rw [hmk] at heq
      rw [heq]
      rw [show pagesFrom server 0 3
        = (server 0).items ++ ((server 1).items ++ ((server 2).items ++ [])) from rfl]
      rw [h0, h1, h2]
      simp
    · have := hall 2 (by omega)
      rw [hs2] at this
      cases this
  · simp [hl0, hl1, hl2]

/-- A concrete server for the C8 witness: pages `0‥39`, `40‥79`, `80‥99`. -/
def threePageServer : Nat → Page Nat
  | 0 => ⟨List.range 40, some "a"⟩
  | 1 => ⟨List.range' 40 40, some "b"⟩
  | 2 => ⟨List.range' 80 20, none⟩
  | _ => ⟨[], none⟩

/-- Witness for C8 on `threePageServer` with bound 100: one sequence of the
100 items `0‥99`, exactly 3 requests. -/
theorem paginateWithCursor_three_pages_witness :
    threePageServer 0 = ⟨List.range 40, some "a"⟩ ∧
    threePageServer 1 = ⟨List.range' 40 40, some "b"⟩ ∧
    threePageServer 2 = ⟨List.range' 80 20, none⟩ ∧
    (List.range 40).length = 40 ∧ (List.range' 40 40).length = 40 ∧
    (List.range' 80 20).length = 20 ∧
    ("a" : String) ≠ "" ∧ ("b" : String) ≠ "" ∧ ("a" : String) ≠ "b" ∧ 3 ≤ 100 ∧
    (paginateWithCursor threePageServer 100
        = .success (List.range 40 ++ List.range' 40 40 ++ List.range' 80 20) 3 ∧
      (List.range 40 ++ List.range' 40 40 ++ List.range' 80 20).length = 100) :=
  ⟨rfl, rfl, rfl, by decide, by decide, by decide, by decide, by decide, by decide, by decide,
   paginateWithCursor_three_pages threePageServer
     (List.range 40) (List.range' 40 40) (List.range' 80 20) "a" "b" 100
     rfl rfl rfl (by decide) (by decide) (by decide)
     (by decide) (by decide) (by decide) (by decide)⟩

/-! ## Memoization lemmas -/

theorem getChainIdIter_cached (net : Nat → Except AptosApiError Nat) (m v k : Nat) :
    getChainIdIter net m ⟨some v, k⟩
      = (List.replicate m (Except.ok v), ⟨some v, k⟩) := by
  induction m with
  | zero => rfl
  | succ m ih => simp [getChainIdIter, getChainIdOnce, ih, List.replicate_succ]

/-- C9: memoized `getChainId` on one instance. If the first underlying call
succeeds with `v`, then any `n ≥ 1` sequential invocations all return `v`
while the network is called exactly once. If an invocation with an empty
cache hits a network failure, the error is returned and nothing is cached,
so a following invocation performs the underlying call again from scratch
(and caches its success). -/
theorem getChainId_memoization :
    (∀ (net : Nat → Except AptosApiError Nat) (v n : Nat),
      net 0 = Except.ok v → 1 ≤ n →
      getChainIdIter net n ⟨none, 0⟩
        = (List.replicate n (Except.ok v), ⟨some v, 1⟩)) ∧
    (∀ (net : Nat → Except AptosApiError Nat) (e : AptosApiError) (k : Nat),
      net k = Except.error e →
      getChainIdOnce net ⟨none, k⟩ = (Except.error e, ⟨none, k + 1⟩)) ∧
    (∀ (net : Nat → Except AptosApiError Nat) (e : AptosApiError) (k w : Nat),
      net k = Except.error e → net (k + 1) = Except.ok w →
      getChainIdIter net 2 ⟨none, k⟩
        = ([Except.error e, Except.ok w], ⟨some w, k + 2⟩)) := by
  refine ⟨?_, ?_, ?_⟩
  · intro net v n h0 hn
    match n, hn with
    | m + 1, _ =>
      simp [getChainIdIter, getChainIdOnce, h0, getChainIdIter_cached, List.replicate_succ]
  · intro net e k hk
    simp [getChainIdOnce, hk]
  · intro net e k w hk hk1
    simp [getChainIdIter, getChainIdOnce, hk, hk1]

/-- A concrete `AptosApiError` used by the C9 witness's failing network. -/
def sampleApiError : AptosApiError :=
  { name := "AptosApiError"
    message := "Account not found"
    url := "https://fullnode.devnet.aptoslabs.com/v1"
    status := 404
    statusText := "Not Found"
    data := .null
    request := { url := "https://fullnode.devnet.aptoslabs.com/v1", method := .GET } }

/-- A concrete network for the C9 witness: the first call fails, later
calls succeed with chain id 7. -/
def sampleNet : Nat → Except AptosApiError Nat
  | 0 => .error sampleApiError
  | _ => .ok 7

/-- Witness for C9: three invocations over an always-succeeding network
return chain id 4 three times with one network call; on `sampleNet` the
first invocation fails without caching and the second retries and caches
7. -/
theorem getChainId_memoization_witness :
    (fun _ => Except.ok 4 : Nat → Except AptosApiError Nat) 0 = Except.ok 4 ∧
    1 ≤ 3 ∧
    getChainIdIter (fun _ => Except.ok 4) 3 ⟨none, 0⟩
      = (List.replicate 3 (Except.ok 4), ⟨some 4, 1⟩) ∧
    sampleNet 0 = Except.error sampleApiError ∧
    getChainIdOnce sampleNet ⟨none, 0⟩ = (Except.error sampleApiError, ⟨none, 1⟩) ∧
    sampleNet 1 = Except.ok 7 ∧
    getChainIdIter sampleNet 2 ⟨none, 0⟩
      = ([Except.error sampleApiError, Except.ok 7], ⟨some 7, 2⟩) :=
  ⟨rfl, by omega, getChainId_memoization.1 _ 4 3 rfl (by omega),
   rfl, getChainId_memoization.2.1 sampleNet sampleApiError 0 rfl,
   rfl, getChainId_memoization.2.2 sampleNet sampleApiError 0 7 rfl rfl⟩

end Aptos
